import Mathlib

set_option maxHeartbeats 1000000
set_option maxRecDepth 100000

/-!
Verification of the live classroom-polling server (socket.io backend).

The server keeps an in-memory map of polls, a queue of waiting students and a
global active-poll pointer, and mutates them from socket event handlers.  We
embed that state shallowly: each handler becomes a pure function from the
server state (plus the values that the runtime supplies: fresh uuids, the
current time, timer handles) to a new state and a list of emitted messages.
`setTimeout`/`clearTimeout` are modelled by a set of armed timer handles; a
timer firing is just another event delivered to the state machine.
-/

namespace LivePoll

/-- A roster entry: the `{ id, name }` object stored in `poll.students`. -/
structure Student where
  id : String
  name : String
  deriving Repr, DecidableEq

/-- One answer option: the `{ id, text, count }` object in `question.options`. -/
structure QOption where
  id : String
  text : String
  count : Nat
  deriving Repr, DecidableEq

/-- The `question` object built in the `teacher:askQuestion` handler.
`answeredBy` models the JS `Set` (the handler only ever adds an element after
checking `has`, so a duplicate-free list is an exact model); `timerRef` is the
handle returned by `setTimeout`, `none` modelling JS `null`. -/
structure Question where
  id : String
  text : String
  options : List QOption
  askedAt : Nat
  durationSec : Nat
  totalAnswers : Nat
  status : String
  answeredBy : List String
  timerRef : Option Nat
  deriving Repr, DecidableEq

/-- An entry of `poll.pastQuestions`: the spread `{ ...result, finishedAt, reason }`
built in `endQuestion`. -/
structure HistoryEntry where
  questionId : String
  text : String
  options : List QOption
  totalAnswers : Nat
  durationSec : Nat
  finishedAt : Nat
  reason : String
  deriving Repr, DecidableEq

/-- A poll object as stored in the global `polls` map. `students` models the JS
`Map<socketId, {name, id}>` as an insertion-ordered association list. -/
structure Poll where
  id : String
  teacherSocketId : Option String
  students : List (String × Student)
  currentQuestion : Option Question
  pastQuestions : List HistoryEntry
  deriving Repr, DecidableEq

/-- JSON-like values, used to model the payload objects of socket.io emits. -/
inductive JVal where
  | null
  | s (v : String)
  | n (v : Nat)
  | b (v : Bool)
  | arr (elems : List JVal)
  | obj (fields : List (String × JVal))

/-- Field lookup on a JSON object value. -/
def JVal.objGet : JVal → String → Option JVal
  | .obj fields, k => (fields.find? (fun f => f.1 == k)).map (fun f => f.2)
  | _, _ => none

/-- Index lookup on a JSON array value. -/
def JVal.getIdx : JVal → Nat → Option JVal
  | .arr elems, i => elems[i]?
  | _, _ => none

/-- A step of a path into a JSON value. -/
inductive JStep where
  | key (k : String)
  | idx (i : Nat)

/-- Follow a key/index path into a JSON value. -/
def JVal.getPath : JVal → List JStep → Option JVal
  | v, [] => some v
  | v, (.key k) :: rest =>
      match v.objGet k with
      | some w => w.getPath rest
      | none => none
  | v, (.idx i) :: rest =>
      match v.getIdx i with
      | some w => w.getPath rest
      | none => none

/-- Where an emit goes: `io.to(room).emit` vs `socket.emit`. -/
inductive Target where
  | room (pollId : String)
  | sock (socketId : String)
  deriving Repr, DecidableEq

/-- One outbound message. -/
structure Emit where
  target : Target
  event : String
  payload : JVal

/-- The whole in-memory server state: the `polls` map (insertion ordered),
the `waitingStudents` map, the `activePollId` global, the set of armed
`setTimeout` handles (each remembering which poll its callback closed over),
and the set of currently connected sockets. -/
structure ServerState where
  polls : List Poll
  waitingStudents : List (String × String)
  activePollId : Option String
  armedTimers : List (Nat × String)
  live : List String

/-- The state at process start. -/
def initialState : ServerState :=
  { polls := [], waitingStudents := [], activePollId := none, armedTimers := [], live := [] }

/-- JS `String.prototype.trim()`: strip whitespace from both ends (computed on
the character list so that it reduces in the kernel). -/
def jsTrim (s : String) : String :=
  ⟨((s.data.dropWhile Char.isWhitespace).reverse.dropWhile Char.isWhitespace).reverse⟩

/-- JS `String.prototype.slice(0, n)`: the first `n` characters. -/
def jsSlice (s : String) (n : Nat) : String :=
  ⟨s.data.take n⟩

/-! ### JS `Map` operations on association lists -/

/-- `map.has(k)`. -/
def mapHas (m : List (String × α)) (k : String) : Bool :=
  m.any (fun p => p.1 == k)

/-- `map.set(k, v)`: replaces in place if the key exists, else appends
(JS `Map` insertion order). -/
def mapSet (m : List (String × α)) (k : String) (v : α) : List (String × α) :=
  if mapHas m k then m.map (fun p => if p.1 == k then (k, v) else p) else m ++ [(k, v)]

/-- `map.delete(k)`. -/
def mapDelete (m : List (String × α)) (k : String) : List (String × α) :=
  m.filter (fun p => p.1 != k)

/-- `map.get(k)`. -/
def mapGet (m : List (String × α)) (k : String) : Option α :=
  (m.find? (fun p => p.1 == k)).map (fun p => p.2)

/-- `polls.get(pollId)`. -/
def getPoll (s : ServerState) (pid : String) : Option Poll :=
  s.polls.find? (fun p => p.id == pid)

/-- Write a poll object back into the `polls` map (in JS this is aliasing:
handlers mutate the poll object retrieved from the map in place). -/
def pollsSet (polls : List Poll) (p : Poll) : List Poll :=
  if polls.any (fun x => x.id == p.id) then
    polls.map (fun x => if x.id == p.id then p else x)
  else
    polls ++ [p]

/-! ### Server helpers -/

/-- `createPoll()`: a fresh poll with no teacher, no students, no question.
The uuid slice is supplied by the caller as `freshId`. -/
def createPoll (freshId : String) (s : ServerState) : Poll × ServerState :=
  let p : Poll :=
    { id := freshId, teacherSocketId := none, students := [],
      currentQuestion := none, pastQuestions := [] }
  (p, { s with polls := pollsSet s.polls p })

/-- `canAskNewQuestion(poll)`: allowed when there is no current question, when
everyone on the (current) roster has answered, or when the question is no
longer active. -/
def canAskNewQuestion (p : Poll) : Bool :=
  match p.currentQuestion with
  | none => true
  | some q =>
      let everyoneAnswered :=
        decide (q.totalAnswers ≥ p.students.length) && decide (p.students.length > 0)
      let finished := q.status != "active"
      everyoneAnswered || finished

/-- `clearTimeout(ref)`: disarm the timer handle; a no-op on `null` or on a
handle that already fired. -/
def clearTimeoutOn (ref : Option Nat) (armed : List (Nat × String)) : List (Nat × String) :=
  match ref with
  | none => armed
  | some tid => armed.filter (fun t => t.1 != tid)

/-- The `({ id, text, count })` projection used for snapshots, `results:update`
and `questionFinished`. -/
def optionFullJ (o : QOption) : JVal :=
  .obj [("id", .s o.id), ("text", .s o.text), ("count", .n o.count)]

/-- The `({ id, text })` projection used for `questionAsked`. -/
def optionAskJ (o : QOption) : JVal :=
  .obj [("id", .s o.id), ("text", .s o.text)]

/-- A roster entry as emitted. -/
def studentJ (st : Student) : JVal :=
  .obj [("id", .s st.id), ("name", .s st.name)]

/-- `Array.from(poll.students.values())` as emitted in `roster:update`. -/
def rosterJ (students : List (String × Student)) : JVal :=
  .arr (students.map (fun p => studentJ p.2))

/-- The `currentQuestion` snapshot object sent inside `teacher:ready` and
`student:ready` (note: options are serialized with their `count`). -/
def questionSnapshotJ (q : Question) : JVal :=
  .obj [("id", .s q.id), ("text", .s q.text),
        ("options", .arr (q.options.map optionFullJ)),
        ("askedAt", .n q.askedAt), ("durationSec", .n q.durationSec),
        ("totalAnswers", .n q.totalAnswers), ("status", .s q.status)]

/-- `poll.currentQuestion ? {...} : null` in the ready payloads. -/
def currentQuestionJ : Option Question → JVal
  | none => .null
  | some q => questionSnapshotJ q

/-- A `pastQuestions` entry as serialized in the ready payloads. -/
def historyEntryJ (h : HistoryEntry) : JVal :=
  .obj [("questionId", .s h.questionId), ("text", .s h.text),
        ("options", .arr (h.options.map optionFullJ)),
        ("totalAnswers", .n h.totalAnswers), ("durationSec", .n h.durationSec),
        ("finishedAt", .n h.finishedAt), ("reason", .s h.reason)]

/-- The `result` object built in `endQuestion`.  Exactly this object is
emitted as `questionFinished`; `finishedAt` and `reason` are added only to the
copy pushed onto `pastQuestions`. -/
def resultPayloadJ (q : Question) : JVal :=
  .obj [("questionId", .s q.id), ("text", .s q.text),
        ("options", .arr (q.options.map optionFullJ)),
        ("totalAnswers", .n q.totalAnswers), ("durationSec", .n q.durationSec)]

/-- `endQuestion(io, poll, reason)`: finish the current question (if any),
disarm its timer, prepend the result to history, clear `currentQuestion`, and
broadcast `questionFinished` to the room.  (The JS copies the option objects
into the result; in a pure model that copy is the identity.) -/
def endQuestion (reason : String) (now : Nat) (p : Poll) (armed : List (Nat × String)) :
    Poll × List (Nat × String) × List Emit :=
  match p.currentQuestion with
  | none => (p, armed, [])
  | some q =>
      let armed' := clearTimeoutOn q.timerRef armed
      let entry : HistoryEntry :=
        { questionId := q.id, text := q.text, options := q.options,
          totalAnswers := q.totalAnswers, durationSec := q.durationSec,
          finishedAt := now, reason := reason }
      let p' := { p with pastQuestions := entry :: p.pastQuestions, currentQuestion := none }
      (p', armed', [⟨Target.room p.id, "questionFinished", resultPayloadJ q⟩])

/-- `getLatestActivePoll()`: the last poll (in insertion order) with a bound
teacher. -/
def getLatestActivePoll (s : ServerState) : Option Poll :=
  s.polls.foldl (fun latest p => if p.teacherSocketId.isSome then some p else latest) none

/-- `findPollByStudentSocket(socketId)`. -/
def findPollByStudentSocket (s : ServerState) (sid : String) : Option Poll :=
  s.polls.find? (fun p => mapHas p.students sid)

/-! ### Event handlers -/

/-- The `{currentQuestion, pastQuestions}` payload of `student:ready`. -/
def studentReadyJ (p : Poll) : JVal :=
  .obj [("currentQuestion", currentQuestionJ p.currentQuestion),
        ("pastQuestions", .arr (p.pastQuestions.map historyEntryJ))]

/-- The waiting-student drain loop at the end of the `teacher:init` handler:
for each queued student whose socket is still connected, add it to the roster
and emit `roster:update` (to the room) and `student:ready` (to the student);
entries whose socket is gone are dropped.  Every entry is deleted from the
queue either way. -/
def drainWaiting (live : List String) (entries : List (String × String)) (p : Poll) :
    Poll × List Emit :=
  match entries with
  | [] => (p, [])
  | (sid, nm) :: rest =>
      if live.contains sid then
        let student : Student := { id := sid, name := jsSlice (jsTrim nm) 40 }
        let p' := { p with students := mapSet p.students sid student }
        let outs : List Emit :=
          [⟨Target.room p'.id, "roster:update", rosterJ p'.students⟩,
           ⟨Target.sock sid, "student:ready", studentReadyJ p'⟩]
        let (p'', outs') := drainWaiting live rest p'
        (p'', outs ++ outs')
      else
        drainWaiting live rest p

/-- The body of the `teacher:init` handler once the poll object `p0` is in
hand (either looked up or freshly created): bind the teacher, mark the poll
globally active, emit `teacher:ready`, then drain the waiting students into
this poll. -/
def teacherInitWith (sid : String) (p0 : Poll) (s1 : ServerState) : ServerState × List Emit :=
  let poll := { p0 with teacherSocketId := some sid }
  let s2 := { s1 with polls := pollsSet s1.polls poll, activePollId := some poll.id }
  let ready : Emit :=
    ⟨Target.sock sid, "teacher:ready",
      .obj [("pollId", .s poll.id),
            ("students", rosterJ poll.students),
            ("currentQuestion", currentQuestionJ poll.currentQuestion),
            ("pastQuestions", .arr (poll.pastQuestions.map historyEntryJ))]⟩
  let drained := drainWaiting s2.live s2.waitingStudents poll
  let s3 := { s2 with polls := pollsSet s2.polls drained.1, waitingStudents := [] }
  (s3, ready :: drained.2)

/-- The `teacher:init` handler: `let poll = pollId && polls.get(pollId);
if (!poll) poll = createPoll();` then the common body. -/
def teacherInit (sid : String) (pollId : Option String) (freshPollId : String)
    (s : ServerState) : ServerState × List Emit :=
  match pollId.bind (getPoll s) with
  | some p => teacherInitWith sid p s
  | none =>
      let c := createPoll freshPollId s
      teacherInitWith sid c.1 c.2

/-- Poll resolution in the `student:init` handler: the requested poll if it
exists, else the globally active poll if it exists, else the latest poll with
a bound teacher. -/
def resolveStudentPoll (s : ServerState) (pollId : Option String) : Option Poll :=
  match pollId.bind (getPoll s) with
  | some p => some p
  | none =>
      match s.activePollId.bind (getPoll s) with
      | some p => some p
      | none => getLatestActivePoll s

/-- The `student:init` handler: resolve a poll; if none, queue the student and
emit `student:waiting`; else add to the roster (name trimmed, truncated to 40
chars) and emit `roster:update` to the room and `student:ready` to the
student. -/
def studentInit (sid : String) (pollId : Option String) (nm : Option String)
    (s : ServerState) : ServerState × List Emit :=
  let studentName := jsSlice (jsTrim (nm.getD "")) 40
  match resolveStudentPoll s pollId with
  | none =>
      ({ s with waitingStudents := mapSet s.waitingStudents sid studentName },
       [⟨Target.sock sid, "student:waiting", .null⟩])
  | some poll =>
      let student : Student := { id := sid, name := studentName }
      let poll' := { poll with students := mapSet poll.students sid student }
      ({ s with polls := pollsSet s.polls poll' },
       [⟨Target.room poll'.id, "roster:update", rosterJ poll'.students⟩,
        ⟨Target.sock sid, "student:ready", studentReadyJ poll'⟩])

/-- `(options && options.length ? options : ['A','B','C','D']).map(...)`:
each option gets a fresh uuid, its text truncated to 80 chars, count 0. -/
def normalizeOptions (texts : List String) (freshOid : Nat → String) : List QOption :=
  let base := if texts.length > 0 then texts else ["A", "B", "C", "D"]
  base.enum.map (fun it => { id := freshOid it.1, text := jsSlice it.2 80, count := 0 })

/-- `String(text || 'Question').slice(0, 140)`. -/
def normalizeQText : Option String → String
  | some t => jsSlice (if t = "" then "Question" else t) 140
  | none => jsSlice "Question" 140

/-- `Number(durationSec) > 0 ? Math.min(Number(durationSec), 300) : 60`. -/
def clampDuration : Option Nat → Nat
  | some d => if d > 0 then min d 300 else 60
  | none => 60

/-- The `teacher:askQuestion` handler.  `freshQid`/`freshOid` stand for the
uuids the runtime generates, `freshTid` for the `setTimeout` handle, `now` for
`Date.now()`. -/
def teacherAskQuestion (sid pollIdReq : String) (text : Option String)
    (optionTexts : List String) (durationSec : Option Nat) (freshQid : String)
    (freshOid : Nat → String) (freshTid : Nat) (now : Nat)
    (s : ServerState) : ServerState × List Emit :=
  match getPoll s pollIdReq with
  | none => (s, [⟨Target.sock sid, "errorMessage", .s "Poll not found"⟩])
  | some poll =>
      if poll.teacherSocketId ≠ some sid then
        (s, [⟨Target.sock sid, "errorMessage", .s "Not authorized"⟩])
      else if !canAskNewQuestion poll then
        (s, [⟨Target.sock sid, "errorMessage", .s "Wait until previous question finishes"⟩])
      else
        let question : Question :=
          { id := freshQid, text := normalizeQText text,
            options := normalizeOptions optionTexts freshOid,
            askedAt := now, durationSec := clampDuration durationSec,
            totalAnswers := 0, status := "active", answeredBy := [],
            timerRef := some freshTid }
        let poll' := { poll with currentQuestion := some question }
        ({ s with polls := pollsSet s.polls poll',
                  armedTimers := s.armedTimers ++ [(freshTid, poll'.id)] },
         [⟨Target.room poll'.id, "questionAsked",
           .obj [("id", .s question.id), ("text", .s question.text),
                 ("options", .arr (question.options.map optionAskJ)),
                 ("askedAt", .n question.askedAt),
                 ("durationSec", .n question.durationSec)]⟩])

/-- `pollId ? polls.get(pollId) : findPollByStudentSocket(socket.id)` (used by
`student:submit` and `chat:send`). -/
def resolveSubmitPoll (s : ServerState) (sid : String) (pollId : Option String) : Option Poll :=
  match pollId with
  | some pid => getPoll s pid
  | none => findPollByStudentSocket s sid

/-- Increment the `count` of the first option whose id matches (the JS
`options.find(...)` returns a reference whose `count` is incremented). -/
def bumpOption : List QOption → String → List QOption
  | [], _ => []
  | o :: os, oid =>
      if o.id == oid then { o with count := o.count + 1 } :: os
      else o :: bumpOption os oid

/-- The `student:submit` handler.  Every rejection path is a silent no-op.
On success: bump the chosen option, bump `totalAnswers`, record the socket in
`answeredBy`, broadcast `results:update`, and if the whole (current) roster
has now answered, finish the question with reason `all_answered`. -/
def studentSubmit (sid : String) (pollId : Option String) (questionId optionId : String)
    (now : Nat) (s : ServerState) : ServerState × List Emit :=
  match resolveSubmitPoll s sid pollId with
  | none => (s, [])
  | some poll =>
      match poll.currentQuestion with
      | none => (s, [])
      | some q =>
          if q.id ≠ questionId ∨ q.status ≠ "active" then (s, [])
          else if sid ∈ q.answeredBy then (s, [])
          else
            match q.options.find? (fun o => o.id == optionId) with
            | none => (s, [])
            | some _ =>
                let q' := { q with options := bumpOption q.options optionId,
                                   totalAnswers := q.totalAnswers + 1,
                                   answeredBy := q.answeredBy ++ [sid] }
                let poll' := { poll with currentQuestion := some q' }
                let resultsOut : Emit :=
                  ⟨Target.room poll'.id, "results:update",
                    .obj [("questionId", .s q'.id),
                          ("options", .arr (q'.options.map optionFullJ)),
                          ("totalAnswers", .n q'.totalAnswers),
                          ("studentsTotal", .n poll'.students.length)]⟩
                if q'.totalAnswers ≥ poll'.students.length ∧ poll'.students.length > 0 then
                  let fin := endQuestion "all_answered" now poll' s.armedTimers
                  ({ s with polls := pollsSet s.polls fin.1, armedTimers := fin.2.1 },
                   resultsOut :: fin.2.2)
                else
                  ({ s with polls := pollsSet s.polls poll' }, [resultsOut])

/-- The `teacher:endQuestion` handler: only the bound teacher may finish the
current question (reason `teacher_end`); everything else is a silent no-op. -/
def teacherEndQuestion (sid pollIdReq : String) (now : Nat) (s : ServerState) :
    ServerState × List Emit :=
  match getPoll s pollIdReq with
  | none => (s, [])
  | some poll =>
      if poll.teacherSocketId ≠ some sid then (s, [])
      else
        let fin := endQuestion "teacher_end" now poll s.armedTimers
        ({ s with polls := pollsSet s.polls fin.1, armedTimers := fin.2.1 }, fin.2.2)

/-- The `teacher:removeStudent` handler: the bound teacher removes a roster
entry; the removed socket (if still connected) gets `student:kicked`, the room
gets the updated roster. -/
def teacherRemoveStudent (sid pollIdReq studentId : String) (s : ServerState) :
    ServerState × List Emit :=
  match getPoll s pollIdReq with
  | none => (s, [])
  | some poll =>
      if poll.teacherSocketId ≠ some sid then (s, [])
      else if mapHas poll.students studentId then
        let kicked : List Emit :=
          if s.live.contains studentId then
            [⟨Target.sock studentId, "student:kicked", .null⟩]
          else []
        let poll' := { poll with students := mapDelete poll.students studentId }
        ({ s with polls := pollsSet s.polls poll' },
         kicked ++ [⟨Target.room poll'.id, "roster:update", rosterJ poll'.students⟩])
      else (s, [])

/-- The `chat:send` handler: pure broadcast, no state change. -/
def chatSend (sid : String) (pollId : Option String) (sender msg roleStr : Option String)
    (freshId : String) (now : Nat) (s : ServerState) : ServerState × List Emit :=
  match resolveSubmitPoll s sid pollId with
  | none => (s, [])
  | some poll =>
      (s, [⟨Target.room poll.id, "chat:message",
            .obj [("id", .s freshId), ("at", .n now),
                  ("from", .s (jsSlice (sender.getD "") 40)),
                  ("role", .s (if roleStr = some "teacher" then "teacher" else "student")),
                  ("message", .s (jsSlice (msg.getD "") 280))]⟩])

/-- The per-poll body of the disconnect loop: drop the socket from the roster
(emitting `roster:update` if it was there), and clear the teacher binding
(clearing the global active pointer if it pointed here). -/
def disconnectStep (sid : String) (acc : List Poll × Option String × List Emit) (p : Poll) :
    List Poll × Option String × List Emit :=
  let pair1 : Poll × List Emit :=
    if mapHas p.students sid then
      let p' := { p with students := mapDelete p.students sid }
      (p', [⟨Target.room p'.id, "roster:update", rosterJ p'.students⟩])
    else (p, [])
  let pair2 : Poll × Option String :=
    if pair1.1.teacherSocketId = some sid then
      ({ pair1.1 with teacherSocketId := none },
       if acc.2.1 = some pair1.1.id then none else acc.2.1)
    else (pair1.1, acc.2.1)
  (acc.1 ++ [pair2.1], pair2.2, acc.2.2 ++ pair1.2)

/-- The `disconnect` handler: walk every poll with `disconnectStep`, then drop
the socket from the waiting queue (and from the connected set). -/
def handleDisconnect (sid : String) (s : ServerState) : ServerState × List Emit :=
  let res := s.polls.foldl (disconnectStep sid) ([], s.activePollId, [])
  ({ s with polls := res.1, activePollId := res.2.1,
            waitingStudents := mapDelete s.waitingStudents sid,
            live := s.live.filter (fun x => x != sid) },
   res.2.2)

/-- A `setTimeout` callback firing: the handle is consumed, and the callback —
`endQuestion(io, poll, 'timeout')` closed over the poll object — runs against
the poll's *current* state. -/
def fireTimer (tid : Nat) (now : Nat) (s : ServerState) : ServerState × List Emit :=
  match s.armedTimers.find? (fun t => t.1 == tid) with
  | none => (s, [])
  | some tp =>
      let armedAfterFire := s.armedTimers.filter (fun t => t.1 != tid)
      match getPoll s tp.2 with
      | none => ({ s with armedTimers := armedAfterFire }, [])
      | some poll =>
          let fin := endQuestion "timeout" now poll armedAfterFire
          ({ s with polls := pollsSet s.polls fin.1, armedTimers := fin.2.1 }, fin.2.2)

/-- A new socket connection. -/
def handleConnect (sid : String) (s : ServerState) : ServerState × List Emit :=
  ({ s with live := if s.live.contains sid then s.live else s.live ++ [sid] }, [])

/-- The REST `POST /api/polls` endpoint. -/
def restCreatePoll (freshId : String) (s : ServerState) : ServerState × List Emit :=
  ((createPoll freshId s).2, [])

/-! ### The event loop -/

/-- One event delivered to the single-threaded event loop (socket messages,
connection lifecycle, the REST creation endpoint, and timer expiry).  Fresh
uuids, timer handles and `Date.now()` readings are carried by the event. -/
inductive Event where
  | connect (sid : String)
  | restCreate (freshId : String)
  | teacherJoin (sid : String) (pollId : Option String) (freshPollId : String)
  | studentJoin (sid : String) (pollId : Option String) (nm : Option String)
  | ask (sid pollIdReq : String) (text : Option String) (optionTexts : List String)
        (durationSec : Option Nat) (freshQid : String) (freshOid : Nat → String)
        (freshTid : Nat) (now : Nat)
  | submit (sid : String) (pollId : Option String) (questionId optionId : String) (now : Nat)
  | endQ (sid pollIdReq : String) (now : Nat)
  | remove (sid pollIdReq studentId : String)
  | chat (sid : String) (pollId : Option String) (sender msg roleStr : Option String)
         (freshId : String) (now : Nat)
  | disconnect (sid : String)
  | timerFire (tid : Nat) (now : Nat)

/-- Dispatch table: run one event to completion. -/
def applyEvent : Event → ServerState → ServerState × List Emit
  | .connect sid, s => handleConnect sid s
  | .restCreate freshId, s => restCreatePoll freshId s
  | .teacherJoin sid pollId freshPollId, s => teacherInit sid pollId freshPollId s
  | .studentJoin sid pollId nm, s => studentInit sid pollId nm s
  | .ask sid pid text opts dur fq fo ft now, s =>
      teacherAskQuestion sid pid text opts dur fq fo ft now s
  | .submit sid pollId qid oid now, s => studentSubmit sid pollId qid oid now s
  | .endQ sid pid now, s => teacherEndQuestion sid pid now s
  | .remove sid pid stid, s => teacherRemoveStudent sid pid stid s
  | .chat sid pollId sender msg roleStr freshId now, s =>
      chatSend sid pollId sender msg roleStr freshId now s
  | .disconnect sid, s => handleDisconnect sid s
  | .timerFire tid now, s => fireTimer tid now s

/-- Run a sequence of events from a state. -/
def runFrom (s : ServerState) : List Event → ServerState
  | [] => s
  | e :: es => runFrom (applyEvent e s).1 es

/-- Run a sequence of events from process start. -/
def runTrace (es : List Event) : ServerState :=
  runFrom initialState es

/-- The states the server can actually be in between completed event
handlers. -/
inductive Reachable : ServerState → Prop where
  | init : Reachable initialState
  | step (e : Event) (s : ServerState) : Reachable s → Reachable (applyEvent e s).1

/-! ### Derived predicates and invariants -/

/-- Sum of the per-option counts of a question. -/
def optionCountSum (os : List QOption) : Nat :=
  (os.map (fun o => o.count)).sum

/-- Invariant of a live (current) question: it is active, its `totalAnswers`
equals the number of distinct responders, the option counts sum to
`totalAnswers`, and nobody is recorded twice. -/
def QuestionInv (q : Question) : Prop :=
  q.status = "active" ∧ q.totalAnswers = q.answeredBy.length ∧
  optionCountSum q.options = q.totalAnswers ∧ q.answeredBy.Nodup

/-- Invariant of a poll: any current question satisfies `QuestionInv`, and
every history entry's counts sum to its `totalAnswers`. -/
def PollInv (p : Poll) : Prop :=
  (∀ q, p.currentQuestion = some q → QuestionInv q) ∧
  (∀ h ∈ p.pastQuestions, optionCountSum h.options = h.totalAnswers)

/-- Invariant of the whole server state. -/
def StateInv (s : ServerState) : Prop :=
  ∀ p ∈ s.polls, PollInv p

/-- The acceptance condition of the `student:submit` handler: the exact chain
of guards the handler checks before mutating anything. -/
def submitAccepted (s : ServerState) (sid : String) (pollId : Option String)
    (questionId optionId : String) : Bool :=
  match resolveSubmitPoll s sid pollId with
  | none => false
  | some poll =>
      match poll.currentQuestion with
      | none => false
      | some q =>
          if q.id ≠ questionId ∨ q.status ≠ "active" then false
          else if sid ∈ q.answeredBy then false
          else (q.options.find? (fun o => o.id == optionId)).isSome

/-- The net effect of the disconnect loop body on one poll. -/
def disconnectPollUpdate (sid : String) (p : Poll) : Poll :=
  let p1 :=
    if mapHas p.students sid then { p with students := mapDelete p.students sid } else p
  if p1.teacherSocketId = some sid then { p1 with teacherSocketId := none } else p1

/-! ### Concrete demonstration traces

A teacher `T` opens poll `p1`, students `A` ("Ann") and `B` ("Bo") join, `T`
asks question `q1` ("2+2?" with options "3"/"4", 10 s), and `A` answers "4".
From there the traces branch into the scenarios used by the claims. -/

/-- Fresh option uuids for the first question. -/
def demoOid : Nat → String := fun i => "o" ++ toString i

/-- Fresh option uuids for the second question. -/
def demoOid2 : Nat → String := fun i => "x" ++ toString i

/-- The common prefix trace described above. -/
def demoEvents : List Event :=
  [ .connect "T", .connect "A", .connect "B",
    .teacherJoin "T" none "p1",
    .studentJoin "A" none (some "Ann"),
    .studentJoin "B" none (some "Bo"),
    .ask "T" "p1" (some "2+2?") ["3", "4"] (some 10) "q1" demoOid 1 100,
    .submit "A" (some "p1") "q1" "o1" 105 ]

/-- State after the common prefix: `q1` is active, `totalAnswers = 1`,
roster `{A, B}`. -/
def demoSt : ServerState := runTrace demoEvents

/-- A default poll value (used only to project out of `Option`). -/
def defaultPoll : Poll :=
  { id := "", teacherSocketId := none, students := [],
    currentQuestion := none, pastQuestions := [] }

/-- A default question value (used only to project out of `Option`). -/
def defaultQuestion : Question :=
  { id := "", text := "", options := [], askedAt := 0, durationSec := 0,
    totalAnswers := 0, status := "", answeredBy := [], timerRef := none }

/-- The demo poll after the common prefix. -/
def demoPoll : Poll := (getPoll demoSt "p1").getD defaultPoll

/-- The demo question after the common prefix. -/
def demoQ : Question := demoPoll.currentQuestion.getD defaultQuestion

/-- `B` disconnects after `A` answered: the roster shrinks to `{A}` while `q1`
stays active with `totalAnswers = 1 ≥ 1 = roster.size`. -/
def shrunkSt : ServerState := runTrace (demoEvents ++ [.disconnect "B"])

/-- The shrunk-roster poll. -/
def shrunkPoll : Poll := (getPoll shrunkSt "p1").getD defaultPoll

/-- `T` asks a second question `q2` in the shrunk state (`q1` still active). -/
def secondAsk : ServerState × List Emit :=
  teacherAskQuestion "T" "p1" (some "Next?") ["x", "y"] (some 10) "q2" demoOid2 2 110 shrunkSt

/-- The timer armed for `q1` (handle `1`) fires after `q2` replaced `q1`. -/
def staleFire : ServerState × List Emit := fireTimer 1 115 secondAsk.1

/-- A teacher socket (re-)attaching to `p1` while `q1` is active with one
recorded answer. -/
def teacherReconnect : ServerState × List Emit := teacherInit "T" (some "p1") "pX" demoSt

/-- A third student joining `p1` while `q1` is active with one recorded
answer. -/
def lateJoin : ServerState × List Emit := studentInit "C" (some "p1") (some "Cy") demoSt

/-- The teacher finishes `q1` explicitly in the demo state. -/
def teacherEnds : ServerState × List Emit := teacherEndQuestion "T" "p1" 120 demoSt

/-- `T` kicks `B` after `A` answered: `B` leaves the roster having never
answered. -/
def kickedSt : ServerState := runTrace (demoEvents ++ [.remove "T" "p1" "B"])

/-- The poll after `B` was kicked. -/
def kickedPoll : Poll := (getPoll kickedSt "p1").getD defaultPoll

/-- The question after `B` was kicked. -/
def kickedQ : Question := kickedPoll.currentQuestion.getD defaultQuestion

/-! ### Helper lemmas about the poll map -/

theorem mem_pollsSet {polls : List Poll} {p x : Poll} (hx : x ∈ pollsSet polls p) :
    x = p ∨ x ∈ polls := by
  unfold pollsSet at hx
  split at hx
  · rcases List.mem_map.mp hx with ⟨y, hy, hxy⟩
    split at hxy
    · exact Or.inl hxy.symm
    · exact Or.inr (hxy ▸ hy)
  · rcases List.mem_append.mp hx with h1 | h1
    · exact Or.inr h1
    · exact Or.inl (by simpa using h1)

theorem getPoll_mem {s : ServerState} {pid : String} {p : Poll} (h : getPoll s pid = some p) :
    p ∈ s.polls :=
  List.mem_of_find?_eq_some h

theorem getPoll_id {s : ServerState} {pid : String} {p : Poll} (h : getPoll s pid = some p) :
    p.id = pid := by
  have := List.find?_some h
  simpa using this

theorem find?_map_replace (polls : List Poll) (p : Poll) :
    (polls.map (fun x => if x.id == p.id then p else x)).find? (fun x => x.id == p.id)
      = if polls.any (fun x => x.id == p.id) then some p else none := by
  induction polls with
  | nil => simp
  | cons y ys ih =>
      cases hy : (y.id == p.id) with
      | true =>
          have hy' : y.id = p.id := by simpa using hy
          simp [List.find?_cons, hy']
      | false =>
          have hyb : ¬ ((y.id == p.id) = true) := by simp [hy]
          simp only [List.map_cons, List.find?_cons, List.any_cons, hy, Bool.false_or]
          rw [if_neg (show ¬ (false = true) by decide)]
          simp only [hy]
          exact ih

theorem find?_pollsSet_self (polls : List Poll) (p : Poll) :
    (pollsSet polls p).find? (fun x => x.id == p.id) = some p := by
  unfold pollsSet
  by_cases h : (polls.any (fun x => x.id == p.id)) = true
  · rw [if_pos h, find?_map_replace, if_pos h]
  · rw [if_neg h]
    have hnone : polls.find? (fun x => x.id == p.id) = none := by
      rw [List.find?_eq_none]
      intro x hx hbeq
      exact h (List.any_eq_true.mpr ⟨x, hx, hbeq⟩)
    induction polls with
    | nil => simp
    | cons y ys ih =>
        simp only [List.find?_cons] at hnone ⊢
        cases hy : (y.id == p.id) with
        | true => rw [hy] at hnone; simp at hnone
        | false =>
            rw [hy] at hnone
            simp only [List.cons_append]
            rw [List.find?_cons, hy]
            exact ih (fun hany => h (by simp [List.any_cons, hany])) hnone

theorem getPoll_set_self {s : ServerState} {polls : List Poll} {p : Poll} {pid : String}
    (hid : p.id = pid) :
    ({ s with polls := pollsSet polls p } : ServerState).polls.find? (fun x => x.id == pid)
      = some p := by
  subst hid
  exact find?_pollsSet_self polls p

/-! ### Frame and invariant lemmas -/

theorem pollInv_frame {p p' : Poll} (hc : p'.currentQuestion = p.currentQuestion)
    (hh : p'.pastQuestions = p.pastQuestions) (h : PollInv p) : PollInv p' := by
  constructor
  · intro q hq
    exact h.1 q (hc ▸ hq)
  · intro x hx
    exact h.2 x (hh ▸ hx)

theorem endQuestion_fst (reason : String) (now : Nat) (p : Poll)
    (armed : List (Nat × String)) :
    (endQuestion reason now p armed).1
      = match p.currentQuestion with
        | none => p
        | some q =>
            { p with currentQuestion := none,
                     pastQuestions :=
                       { questionId := q.id, text := q.text, options := q.options,
                         totalAnswers := q.totalAnswers, durationSec := q.durationSec,
                         finishedAt := now, reason := reason } :: p.pastQuestions } := by
  unfold endQuestion
  cases p.currentQuestion <;> rfl

theorem endQuestion_pollInv {reason : String} {now : Nat} {p : Poll}
    {armed : List (Nat × String)} (h : PollInv p) :
    PollInv (endQuestion reason now p armed).1 := by
  rw [endQuestion_fst]
  cases hc : p.currentQuestion with
  | none => exact h
  | some q =>
      constructor
      · intro q' hq'
        simp at hq'
      · intro x hx
        simp only [List.mem_cons] at hx
        rcases hx with hx | hx
        · subst hx
          exact (h.1 q hc).2.2.1
        · exact h.2 x hx

theorem optionCountSum_normalize (texts : List String) (fo : Nat → String) :
    optionCountSum (normalizeOptions texts fo) = 0 := by
  unfold optionCountSum normalizeOptions
  apply List.sum_eq_zero
  intro x hx
  simp only [List.map_map, List.mem_map, Function.comp] at hx
  rcases hx with ⟨a, _, rfl⟩
  rfl

theorem questionInv_new (freshQid txt : String) (texts : List String) (fo : Nat → String)
    (askedAtV durV ft : Nat) :
    QuestionInv { id := freshQid, text := txt, options := normalizeOptions texts fo,
                  askedAt := askedAtV, durationSec := durV, totalAnswers := 0,
                  status := "active", answeredBy := [], timerRef := some ft } :=
  ⟨rfl, rfl, optionCountSum_normalize texts fo, List.nodup_nil⟩

theorem optionCountSum_bump {os : List QOption} {oid : String}
    (h : (os.find? (fun o => o.id == oid)).isSome) :
    optionCountSum (bumpOption os oid) = optionCountSum os + 1 := by
  induction os with
  | nil => simp [List.find?] at h
  | cons o os ih =>
      cases ho : (o.id == oid) with
      | true =>
          simp only [bumpOption, ho, if_pos]
          simp [optionCountSum]
          omega
      | false =>
          rw [List.find?_cons] at h
          simp only [ho] at h
          simp only [bumpOption, ho]
          rw [if_neg (show ¬ (false = true) by decide)]
          simp only [optionCountSum, List.map_cons, List.sum_cons] at ih ⊢
          rw [ih h]
          omega

theorem nodup_concat {l : List String} {a : String} (hl : l.Nodup) (ha : a ∉ l) :
    (l ++ [a]).Nodup := by
  rw [List.nodup_append]
  refine ⟨hl, List.nodup_singleton a, ?_⟩
  intro x hx hxa
  rw [List.mem_singleton] at hxa
  subst hxa
  exact ha hx

theorem questionInv_bump {q : Question} {sid oid : String} (h : QuestionInv q)
    (hnew : sid ∉ q.answeredBy) (hfind : (q.options.find? (fun o => o.id == oid)).isSome) :
    QuestionInv { q with options := bumpOption q.options oid,
                         totalAnswers := q.totalAnswers + 1,
                         answeredBy := q.answeredBy ++ [sid] } := by
  obtain ⟨h1, h2, h3, h4⟩ := h
  refine ⟨h1, ?_, ?_, ?_⟩
  · simp [h2]
  · rw [optionCountSum_bump hfind, h3]
  · exact nodup_concat h4 hnew

/-! ### Membership lemmas for the poll-resolution helpers -/

theorem foldl_latest_mem (l : List Poll) (init : Option Poll) (p : Poll)
    (h : l.foldl (fun latest x => if x.teacherSocketId.isSome then some x else latest) init
           = some p) :
    init = some p ∨ p ∈ l := by
  induction l generalizing init with
  | nil => exact Or.inl h
  | cons y ys ih =>
      rw [List.foldl_cons] at h
      rcases ih _ h with h1 | h1
      · split at h1
        · injection h1 with h2
          subst h2
          exact Or.inr (List.mem_cons_self _ _)
        · exact Or.inl h1
      · exact Or.inr (List.mem_cons_of_mem _ h1)

theorem getLatestActivePoll_mem {s : ServerState} {p : Poll}
    (h : getLatestActivePoll s = some p) : p ∈ s.polls := by
  rcases foldl_latest_mem s.polls none p h with h1 | h1
  · exact absurd h1 (by simp)
  · exact h1

theorem resolveStudentPoll_mem {s : ServerState} {pollId : Option String} {p : Poll}
    (h : resolveStudentPoll s pollId = some p) : p ∈ s.polls := by
  unfold resolveStudentPoll at h
  split at h
  case h_1 p' heq =>
      cases h
      rcases Option.bind_eq_some.mp heq with ⟨pid, _, hg⟩
      exact getPoll_mem hg
  case h_2 =>
      split at h
      case h_1 p' heq =>
          cases h
          rcases Option.bind_eq_some.mp heq with ⟨pid, _, hg⟩
          exact getPoll_mem hg
      case h_2 => exact getLatestActivePoll_mem h

theorem resolveSubmitPoll_mem {s : ServerState} {sid : String} {pollId : Option String}
    {p : Poll} (h : resolveSubmitPoll s sid pollId = some p) : p ∈ s.polls := by
  unfold resolveSubmitPoll at h
  cases pollId with
  | some pid => exact getPoll_mem h
  | none => exact List.mem_of_find?_eq_some h

/-! ### Frame lemmas for the waiting-student drain and the disconnect loop -/

theorem drainWaiting_frame (live : List String) (entries : List (String × String)) (p : Poll) :
    (drainWaiting live entries p).1.id = p.id ∧
    (drainWaiting live entries p).1.currentQuestion = p.currentQuestion ∧
    (drainWaiting live entries p).1.pastQuestions = p.pastQuestions ∧
    (drainWaiting live entries p).1.teacherSocketId = p.teacherSocketId := by
  induction entries generalizing p with
  | nil => exact ⟨rfl, rfl, rfl, rfl⟩
  | cons e rest ih =>
      obtain ⟨sid, nm⟩ := e
      cases hl : live.contains sid with
      | true =>
          simp only [drainWaiting, hl, if_pos]
          exact ih _
      | false =>
          simp only [drainWaiting, hl]
          rw [if_neg (show ¬ (false = true) by decide)]
          exact ih _

theorem disconnectStep_polls (sid : String) (acc : List Poll × Option String × List Emit)
    (p : Poll) :
    (disconnectStep sid acc p).1 = acc.1 ++ [disconnectPollUpdate sid p] := by
  unfold disconnectStep disconnectPollUpdate
  by_cases hm : mapHas p.students sid = true <;>
    by_cases ht : p.teacherSocketId = some sid <;>
    simp [hm, ht]

theorem disconnect_foldl_polls (sid : String) (l : List Poll)
    (acc : List Poll × Option String × List Emit) :
    (l.foldl (disconnectStep sid) acc).1 = acc.1 ++ l.map (disconnectPollUpdate sid) := by
  induction l generalizing acc with
  | nil => simp
  | cons y ys ih =>
      rw [List.foldl_cons, ih, List.map_cons]
      rw [disconnectStep_polls]
      simp

theorem handleDisconnect_polls (sid : String) (s : ServerState) :
    (handleDisconnect sid s).1.polls = s.polls.map (disconnectPollUpdate sid) := by
  unfold handleDisconnect
  simp [disconnect_foldl_polls]

theorem disconnectPollUpdate_id (sid : String) (p : Poll) :
    (disconnectPollUpdate sid p).id = p.id := by
  unfold disconnectPollUpdate
  by_cases hm : mapHas p.students sid = true <;>
    by_cases ht : p.teacherSocketId = some sid <;>
    simp [hm, ht]

theorem disconnectPollUpdate_frame (sid : String) (p : Poll) :
    (disconnectPollUpdate sid p).currentQuestion = p.currentQuestion ∧
    (disconnectPollUpdate sid p).pastQuestions = p.pastQuestions ∧
    (disconnectPollUpdate sid p).students
      = (if mapHas p.students sid then mapDelete p.students sid else p.students) := by
  unfold disconnectPollUpdate
  by_cases hm : mapHas p.students sid = true <;>
    by_cases ht : p.teacherSocketId = some sid <;>
    simp [hm, ht]

/-! ### Preservation of the state invariant by every event handler -/

theorem stateInv_pollsSet {polls : List Poll} {p : Poll}
    (h : ∀ x ∈ polls, PollInv x) (hp : PollInv p) : ∀ x ∈ pollsSet polls p, PollInv x := by
  intro x hx
  rcases mem_pollsSet hx with rfl | hx2
  · exact hp
  · exact h x hx2

theorem pollInv_fresh (fid : String) :
    PollInv { id := fid, teacherSocketId := none, students := [],
              currentQuestion := none, pastQuestions := [] } :=
  ⟨fun _ hq => absurd hq (by simp), fun _ he => absurd he (by simp)⟩

theorem stateInv_handleConnect (sid : String) {s : ServerState} (h : StateInv s) :
    StateInv (handleConnect sid s).1 :=
  h

theorem stateInv_restCreatePoll (fid : String) {s : ServerState} (h : StateInv s) :
    StateInv (restCreatePoll fid s).1 :=
  stateInv_pollsSet h (pollInv_fresh fid)

theorem stateInv_teacherInitWith (sid : String) (p0 : Poll) {s1 : ServerState}
    (h : StateInv s1) (hp : PollInv p0) : StateInv (teacherInitWith sid p0 s1).1 := by
  intro x hx
  have hpoll : PollInv { p0 with teacherSocketId := some sid } :=
    pollInv_frame rfl rfl hp
  refine stateInv_pollsSet (stateInv_pollsSet h hpoll) ?_ x hx
  exact pollInv_frame (drainWaiting_frame _ _ _).2.1 (drainWaiting_frame _ _ _).2.2.1 hpoll

theorem stateInv_teacherInit (sid : String) (pollId : Option String) (freshPollId : String)
    {s : ServerState} (h : StateInv s) : StateInv (teacherInit sid pollId freshPollId s).1 := by
  unfold teacherInit
  cases hb : pollId.bind (getPoll s) with
  | some p =>
      rcases Option.bind_eq_some.mp hb with ⟨pid, _, hg⟩
      exact stateInv_teacherInitWith sid p h (h p (getPoll_mem hg))
  | none =>
      exact stateInv_teacherInitWith sid _ (stateInv_pollsSet h (pollInv_fresh _))
        (pollInv_fresh _)

theorem stateInv_studentInit (sid : String) (pollId : Option String) (nm : Option String)
    {s : ServerState} (h : StateInv s) : StateInv (studentInit sid pollId nm s).1 := by
  unfold studentInit
  cases hr : resolveStudentPoll s pollId with
  | none => exact h
  | some poll =>
      exact stateInv_pollsSet h (pollInv_frame rfl rfl (h poll (resolveStudentPoll_mem hr)))

theorem stateInv_teacherAskQuestion (sid pid : String) (text : Option String)
    (optionTexts : List String) (durationSec : Option Nat) (freshQid : String)
    (freshOid : Nat → String) (freshTid : Nat) (now : Nat) {s : ServerState}
    (h : StateInv s) :
    StateInv (teacherAskQuestion sid pid text optionTexts durationSec freshQid freshOid
                freshTid now s).1 := by
  unfold teacherAskQuestion
  split
  next => exact h
  next poll hg =>
    split
    next => exact h
    next =>
      split
      next => exact h
      next =>
        refine stateInv_pollsSet h ?_
        constructor
        · intro q hq
          cases hq
          exact questionInv_new _ _ _ _ _ _ _
        · exact (h poll (getPoll_mem hg)).2

theorem stateInv_teacherEndQuestion (sid pid : String) (now : Nat) {s : ServerState}
    (h : StateInv s) : StateInv (teacherEndQuestion sid pid now s).1 := by
  unfold teacherEndQuestion
  split
  next => exact h
  next poll hg =>
    split
    next => exact h
    next => exact stateInv_pollsSet h (endQuestion_pollInv (h poll (getPoll_mem hg)))

theorem stateInv_teacherRemoveStudent (sid pid stid : String) {s : ServerState}
    (h : StateInv s) : StateInv (teacherRemoveStudent sid pid stid s).1 := by
  unfold teacherRemoveStudent
  split
  next => exact h
  next poll hg =>
    split
    next => exact h
    next =>
      split
      next => exact stateInv_pollsSet h (pollInv_frame rfl rfl (h poll (getPoll_mem hg)))
      next => exact h

theorem stateInv_chatSend (sid : String) (pollId : Option String)
    (sender msg roleStr : Option String) (freshId : String) (now : Nat) {s : ServerState}
    (h : StateInv s) : StateInv (chatSend sid pollId sender msg roleStr freshId now s).1 := by
  unfold chatSend
  cases resolveSubmitPoll s sid pollId with
  | none => exact h
  | some poll => exact h

theorem stateInv_handleDisconnect (sid : String) {s : ServerState} (h : StateInv s) :
    StateInv (handleDisconnect sid s).1 := by
  intro x hx
  rw [handleDisconnect_polls] at hx
  rcases List.mem_map.mp hx with ⟨y, hy, rfl⟩
  exact pollInv_frame (disconnectPollUpdate_frame sid y).1
    (disconnectPollUpdate_frame sid y).2.1 (h y hy)

theorem stateInv_fireTimer (tid : Nat) (now : Nat) {s : ServerState} (h : StateInv s) :
    StateInv (fireTimer tid now s).1 := by
  unfold fireTimer
  split
  next => exact h
  next tp hf =>
    split
    next =>
      intro x hx
      exact h x hx
    next poll hg =>
      intro x hx
      exact stateInv_pollsSet h (endQuestion_pollInv (h poll (getPoll_mem hg))) x hx

theorem stateInv_studentSubmit (sid : String) (pollId : Option String)
    (questionId optionId : String) (now : Nat) {s : ServerState} (h : StateInv s) :
    StateInv (studentSubmit sid pollId questionId optionId now s).1 := by
  unfold studentSubmit
  split
  next => exact h
  next poll hr =>
    split
    next => exact h
    next q hq =>
      split
      next => exact h
      next hg1 =>
        split
        next => exact h
        next hg2 =>
          split
          next => exact h
          next o hfind =>
            have hqinv : QuestionInv q :=
              (h poll (resolveSubmitPoll_mem hr)).1 q hq
            have hpoll' : PollInv
                { poll with
                  currentQuestion :=
                    some { q with
                           options := bumpOption q.options optionId,
                           totalAnswers := q.totalAnswers + 1,
                           answeredBy := q.answeredBy ++ [sid] } } := by
              constructor
              · intro q' hq'
                cases hq'
                exact questionInv_bump hqinv hg2 (by rw [hfind]; rfl)
              · exact (h poll (resolveSubmitPoll_mem hr)).2
            dsimp only
            split
            next => exact stateInv_pollsSet h (endQuestion_pollInv hpoll')
            next => exact stateInv_pollsSet h hpoll'

theorem stateInv_applyEvent (e : Event) {s : ServerState} (h : StateInv s) :
    StateInv (applyEvent e s).1 := by
  cases e with
  | connect sid => exact stateInv_handleConnect sid h
  | restCreate fid => exact stateInv_restCreatePoll fid h
  | teacherJoin sid pollId fresh => exact stateInv_teacherInit sid pollId fresh h
  | studentJoin sid pollId nm => exact stateInv_studentInit sid pollId nm h
  | ask sid pid text opts dur fq fo ft now =>
      exact stateInv_teacherAskQuestion sid pid text opts dur fq fo ft now h
  | submit sid pollId qid oid now => exact stateInv_studentSubmit sid pollId qid oid now h
  | endQ sid pid now => exact stateInv_teacherEndQuestion sid pid now h
  | remove sid pid stid => exact stateInv_teacherRemoveStudent sid pid stid h
  | chat sid pollId sender msg roleStr freshId now =>
      exact stateInv_chatSend sid pollId sender msg roleStr freshId now h
  | disconnect sid => exact stateInv_handleDisconnect sid h
  | timerFire tid now => exact stateInv_fireTimer tid now h

theorem stateInv_initial : StateInv initialState := by
  intro p hp
  exact absurd hp (by simp [initialState])

theorem stateInv_reachable {s : ServerState} (h : Reachable s) : StateInv s := by
  induction h with
  | init => exact stateInv_initial
  | step e s _ ih => exact stateInv_applyEvent e ih

theorem reachable_runFrom (s : ServerState) (hs : Reachable s) (es : List Event) :
    Reachable (runFrom s es) := by
  induction es generalizing s with
  | nil => exact hs
  | cons e es ih => exact ih _ (Reachable.step e s hs)

theorem reachable_runTrace (es : List Event) : Reachable (runTrace es) :=
  reachable_runFrom initialState Reachable.init es

/-! ### Further helper lemmas used by the claim theorems -/

theorem endQuestion_id (reason : String) (now : Nat) (p : Poll)
    (armed : List (Nat × String)) : (endQuestion reason now p armed).1.id = p.id := by
  rw [endQuestion_fst]
  cases p.currentQuestion <;> rfl

theorem endQuestion_armed (reason : String) (now : Nat) (p : Poll)
    (armed : List (Nat × String)) :
    (endQuestion reason now p armed).2.1
      = match p.currentQuestion with
        | none => armed
        | some q => clearTimeoutOn q.timerRef armed := by
  unfold endQuestion
  cases p.currentQuestion <;> rfl

theorem endQuestion_out (reason : String) (now : Nat) (p : Poll)
    (armed : List (Nat × String)) :
    (endQuestion reason now p armed).2.2
      = match p.currentQuestion with
        | none => []
        | some q => [⟨Target.room p.id, "questionFinished", resultPayloadJ q⟩] := by
  unfold endQuestion
  cases p.currentQuestion <;> rfl

theorem getPoll_after_set {s : ServerState} {x : Poll} {pid : String} (hid : x.id = pid) :
    getPoll { s with polls := pollsSet s.polls x } pid = some x := by
  unfold getPoll
  dsimp only
  rw [← hid]
  exact find?_pollsSet_self s.polls x

theorem mapDelete_length_lt {m : List (String × α)} {k : String} (h : mapHas m k = true) :
    (mapDelete m k).length < m.length := by
  unfold mapHas at h
  unfold mapDelete
  rcases List.any_eq_true.mp h with ⟨x, hx, hk⟩
  rw [List.length_filter_lt_length_iff_exists]
  refine ⟨x, hx, ?_⟩
  simp only [bne_iff_ne, ne_eq, not_not]
  simpa using hk

theorem find?_map_id_preserved (l : List Poll) (f : Poll → Poll) (pid : String)
    (hf : ∀ p, (f p).id = p.id) :
    (l.map f).find? (fun x => x.id == pid) = (l.find? (fun x => x.id == pid)).map f := by
  induction l with
  | nil => rfl
  | cons y ys ih =>
      simp only [List.map_cons, List.find?_cons, hf]
      cases hy : (y.id == pid) with
      | true => rfl
      | false => exact ih

/-! ### Claim theorems -/

/-- C3: in every reachable server state, every poll's `currentQuestion` is
non-absent exactly when its status is `"active"` — finishing a question (for
any reason) clears `currentQuestion` in the same operation, and asking a
question installs it with status `"active"`, so no other combination survives
a completed event handler. -/
theorem claim3_currentQuestion_iff_active (s : ServerState) (hs : Reachable s)
    (pid : String) (p : Poll) (hp : getPoll s pid = some p) :
    p.currentQuestion ≠ none ↔ p.currentQuestion.map (fun q => q.status) = some "active" := by
  constructor
  · intro hne
    cases hq : p.currentQuestion with
    | none => exact absurd hq hne
    | some q =>
        have hi := (stateInv_reachable hs p (getPoll_mem hp)).1 q hq
        simp [hi.1]
  · intro hm hn
    rw [hn] at hm
    simp at hm

/-- C3 witness: the property instantiated at the concrete demo state, whose
poll holds the active question `q1`. -/
theorem claim3_witness :
    demoPoll.currentQuestion ≠ none ↔
      demoPoll.currentQuestion.map (fun q => q.status) = some "active" :=
  claim3_currentQuestion_iff_active demoSt (reachable_runTrace demoEvents) "p1" demoPoll
    (by decide)

/-- C4: in every reachable server state, a current question's `totalAnswers`
equals the number of distinct connections in its responded set (`answeredBy`,
duplicate-free) and the per-option counts sum to `totalAnswers`; moreover a
second `student:submit` from a connection already recorded for the current
question leaves the state unchanged and emits nothing. -/
theorem claim4_totalAnswers_distinct_once (s : ServerState) (hs : Reachable s)
    (pid : String) (p : Poll) (hp : getPoll s pid = some p)
    (q : Question) (hq : p.currentQuestion = some q)
    (sid : String) (pollId : Option String) (qid oid : String) (now : Nat)
    (p2 : Poll) (q2 : Question) (hr : resolveSubmitPoll s sid pollId = some p2)
    (hq2 : p2.currentQuestion = some q2) (hdup : sid ∈ q2.answeredBy) :
    (q.totalAnswers = q.answeredBy.length ∧ q.answeredBy.Nodup ∧
      optionCountSum q.options = q.totalAnswers)
    ∧ studentSubmit sid pollId qid oid now s = (s, []) := by
  constructor
  · have hi := (stateInv_reachable hs p (getPoll_mem hp)).1 q hq
    exact ⟨hi.2.1, hi.2.2.2, hi.2.2.1⟩
  · unfold studentSubmit
    rw [hr]
    dsimp only
    rw [hq2]
    dsimp only
    by_cases hg1 : q2.id ≠ qid ∨ q2.status ≠ "active"
    · rw [if_pos hg1]
    · rw [if_neg hg1, if_pos hdup]

/-- C4 witness: in the demo state `A` has already answered `q1`; the
invariant holds there and a repeated submit from `A` does nothing. -/
theorem claim4_witness :
    (demoQ.totalAnswers = demoQ.answeredBy.length ∧ demoQ.answeredBy.Nodup ∧
      optionCountSum demoQ.options = demoQ.totalAnswers)
    ∧ studentSubmit "A" (some "p1") "q1" "o1" 106 demoSt = (demoSt, []) :=
  claim4_totalAnswers_distinct_once demoSt (reachable_runTrace demoEvents) "p1" demoPoll
    (by decide) demoQ (by decide) "A" (some "p1") "q1" "o1" 106 demoPoll demoQ (by decide)
    (by decide) (by decide)

/-- C1 counterexample: in the reachable state `shrunkSt` (student `B`
disconnected after `A` answered, so the roster shrank to the one student who
answered) question `q1` is still `"active"` and `T` is the bound teacher, yet
the `teacher:askQuestion` request is accepted: it emits `questionAsked` instead
of an error and installs the new question `q2` in place of the still-active
`q1` — the session state is changed and a new question is created. -/
theorem claim1_counterexample :
    ((getPoll shrunkSt "p1").map (fun p =>
        (p.teacherSocketId, p.currentQuestion.map (fun q => (q.id, q.status))))
      = some (some "T", some ("q1", "active")))
    ∧ (secondAsk.2.map (fun e => e.event) = ["questionAsked"])
    ∧ ((getPoll secondAsk.1 "p1").map (fun p => p.currentQuestion.map (fun q => q.id))
      = some (some "q2")) := by
  refine ⟨?_, ?_, ?_⟩ <;> decide

/-- C1 amended: while a question is active, a `teacher:askQuestion` from the
bound teacher is rejected — the state is unchanged and only a local
`errorMessage` is sent — unless the current roster has fully answered
(`totalAnswers ≥ roster.size` with `roster.size > 0`, reachable only by the
roster shrinking after answers were recorded), in which case the request is
accepted. -/
theorem claim1_amended_ask_rejected_while_active (s : ServerState) (sid pid : String)
    (text : Option String) (opts : List String) (dur : Option Nat) (fq : String)
    (fo : Nat → String) (ft now : Nat) (p : Poll) (q : Question)
    (hp : getPoll s pid = some p) (ht : p.teacherSocketId = some sid)
    (hq : p.currentQuestion = some q) (hact : q.status = "active")
    (hnot : ¬ (q.totalAnswers ≥ p.students.length ∧ p.students.length > 0)) :
    teacherAskQuestion sid pid text opts dur fq fo ft now s
      = (s, [⟨Target.sock sid, "errorMessage",
              JVal.s "Wait until previous question finishes"⟩]) := by
  have hcan : canAskNewQuestion p = false := by
    unfold canAskNewQuestion
    rw [hq]
    dsimp only
    rw [hact]
    simp only [bne_self_eq_false, Bool.or_false]
    rcases not_and_or.mp hnot with h1 | h1 <;> simp [h1]
  unfold teacherAskQuestion
  rw [hp]
  dsimp only
  rw [if_neg (by simp [ht])]
  rw [if_pos (by simp [hcan])]

/-- C1 amended witness: in the demo state (`q1` active, one of two students
answered) the same ask is rejected with the local error and no state change. -/
theorem claim1_amended_witness :
    teacherAskQuestion "T" "p1" (some "Another?") ["a", "b"] (some 10) "q9" demoOid2 9 200 demoSt
      = (demoSt, [⟨Target.sock "T", "errorMessage",
                   JVal.s "Wait until previous question finishes"⟩]) :=
  claim1_amended_ask_rejected_while_active demoSt "T" "p1" (some "Another?") ["a", "b"]
    (some 10) "q9" demoOid2 9 200 demoPoll demoQ (by decide) (by decide) (by decide)
    (by decide) (by decide)

/-- C2: the stale timeout callback is guarded only by `poll.currentQuestion`
being non-null, not by the identity of the question it was armed for.  In the
concrete run below the timer armed for `q1` (handle `1`) is still armed after
`q2` replaced the still-active `q1`; firing it finishes `q2` — a question it
was never armed for — with reason `"timeout"`, and `q1` never reaches the
history at all. -/
theorem claim2_staleTimer_finishes_other_question :
    (secondAsk.1.armedTimers = [(1, "p1"), (2, "p1")])
    ∧ ((getPoll secondAsk.1 "p1").map (fun p => p.currentQuestion.map (fun q => (q.id, q.status)))
        = some (some ("q2", "active")))
    ∧ (((getPoll staleFire.1 "p1").map (fun p =>
          (p.currentQuestion, p.pastQuestions.map (fun e => (e.questionId, e.reason)))))
        = some (none, [("q2", "timeout")])) := by
  refine ⟨?_, ?_, ?_⟩ <;> decide

/-- C8 counterexample: with `q1` active and one answer already recorded, both
the `teacher:ready` snapshot (teacher socket re-attaching to `p1`) and the
`student:ready` snapshot (a third student joining `p1`) serialize the current
question's options together with their live `count` values — the per-option
counts of the active question are revealed. -/
theorem claim8_counterexample :
    ((teacherReconnect.2.head?.map (fun e =>
        (e.event, e.payload.getPath [.key "currentQuestion", .key "status"],
         e.payload.getPath [.key "currentQuestion", .key "options", .idx 1, .key "count"])))
      = some ("teacher:ready", some (.s "active"), some (.n 1)))
    ∧ (((lateJoin.2)[1]?).map (fun e =>
        (e.event, e.payload.getPath [.key "currentQuestion", .key "status"],
         e.payload.getPath [.key "currentQuestion", .key "options", .idx 1, .key "count"]))
      = some ("student:ready", some (.s "active"), some (.n 1))) :=
  ⟨rfl, rfl⟩

/-- The serialized snapshot of a question exposes every option's count. -/
theorem questionSnapshotJ_count (q : Question) (i : Nat) (o : QOption)
    (ho : q.options[i]? = some o) :
    (questionSnapshotJ q).getPath [.key "options", .idx i, .key "count"]
      = some (.n o.count) := by
  show (match ((q.options.map optionFullJ)[i]?) with
        | some w => w.getPath [.key "count"]
        | none => none) = some (.n o.count)
  rw [List.getElem?_map, ho]
  rfl

/-- C8 amended: the attach snapshots do reveal the per-option counts of the
current question while it is active: the `currentQuestion` object inside the
`teacher:ready` payload and inside the `student:ready` payload carries every
option with its live `count`. -/
theorem claim8_amended_snapshots_reveal_counts (s : ServerState)
    (sid sid2 pid fresh : String) (nm : Option String) (p : Poll) (q : Question)
    (i : Nat) (o : QOption) (hp : getPoll s pid = some p)
    (hq : p.currentQuestion = some q) (ho : q.options[i]? = some o) :
    (((teacherInit sid (some pid) fresh s).2.head?).map (fun e =>
        (e.event,
         e.payload.getPath [.key "currentQuestion", .key "options", .idx i, .key "count"])))
      = some ("teacher:ready", some (.n o.count))
    ∧ ((((studentInit sid2 (some pid) nm s).2)[1]?).map (fun e =>
        (e.event,
         e.payload.getPath [.key "currentQuestion", .key "options", .idx i, .key "count"])))
      = some ("student:ready", some (.n o.count)) := by
  have hsnap := questionSnapshotJ_count q i o ho
  constructor
  · unfold teacherInit
    rw [show ((some pid).bind (getPoll s)) = some p from hp]
    dsimp only
    unfold teacherInitWith
    dsimp only
    rw [hq]
    exact congrArg (fun v => some ("teacher:ready", v)) hsnap
  · have hres : resolveStudentPoll s (some pid) = some p := by
      unfold resolveStudentPoll
      rw [show ((some pid).bind (getPoll s)) = some p from hp]
    unfold studentInit
    rw [hres]
    dsimp only [studentReadyJ]
    rw [hq]
    exact congrArg (fun v => some ("student:ready", v)) hsnap

/-- C8 amended witness: the general theorem applied in the demo state to the
option "4", whose count 1 is exposed in both snapshots. -/
theorem claim8_amended_witness :
    (((teacherInit "T" (some "p1") "pX" demoSt).2.head?).map (fun e =>
        (e.event,
         e.payload.getPath [.key "currentQuestion", .key "options", .idx 1, .key "count"])))
      = some ("teacher:ready", some (.n 1))
    ∧ ((((studentInit "C" (some "p1") (some "Cy") demoSt).2)[1]?).map (fun e =>
        (e.event,
         e.payload.getPath [.key "currentQuestion", .key "options", .idx 1, .key "count"])))
      = some ("student:ready", some (.n 1)) :=
  claim8_amended_snapshots_reveal_counts demoSt "T" "C" "p1" "pX" (some "Cy") demoPoll demoQ
    1 { id := "o1", text := "4", count := 1 } (by decide) (by decide) (by decide)

/-- C9 counterexample: when the teacher finishes `q1`, the emitted
`questionFinished` payload has no `reason` and no `finishedAt` field (they are
recorded only on the history entry), so the broadcast does not carry the full
result record the claim describes. -/
theorem claim9_counterexample :
    ((teacherEnds.2.map (fun e =>
        (e.event, e.payload.objGet "reason", e.payload.objGet "finishedAt",
         e.payload.objGet "questionId")))
      = [("questionFinished", none, none, some (.s "q1"))])
    ∧ (((getPoll teacherEnds.1 "p1").map (fun p =>
         p.pastQuestions.map (fun h => (h.questionId, h.reason, h.finishedAt))))
      = some [("q1", "teacher_end", 120)]) :=
  ⟨rfl, rfl⟩

/-- C9 amended: whenever a question finishes, the room receives exactly one
`questionFinished` broadcast whose payload carries `questionId`, `text`, the
options with their final counts, `totalAnswers` and `durationSec` — but not
`reason` or `finishedAt`, which (with the finish reason) are recorded only on
the history entry prepended to `pastQuestions`. -/
theorem claim9_amended_broadcast_content (reason : String) (now : Nat) (p : Poll)
    (armed : List (Nat × String)) (q : Question) (hq : p.currentQuestion = some q) :
    (endQuestion reason now p armed).2.2
      = [⟨Target.room p.id, "questionFinished", resultPayloadJ q⟩]
    ∧ (resultPayloadJ q).objGet "questionId" = some (.s q.id)
    ∧ (resultPayloadJ q).objGet "text" = some (.s q.text)
    ∧ (resultPayloadJ q).objGet "options" = some (.arr (q.options.map optionFullJ))
    ∧ (resultPayloadJ q).objGet "totalAnswers" = some (.n q.totalAnswers)
    ∧ (resultPayloadJ q).objGet "durationSec" = some (.n q.durationSec)
    ∧ (resultPayloadJ q).objGet "reason" = none
    ∧ (resultPayloadJ q).objGet "finishedAt" = none
    ∧ (endQuestion reason now p armed).1.pastQuestions
        = { questionId := q.id, text := q.text, options := q.options,
            totalAnswers := q.totalAnswers, durationSec := q.durationSec,
            finishedAt := now, reason := reason } :: p.pastQuestions := by
  refine ⟨?_, rfl, ?_, ?_, ?_, ?_, ?_, ?_, ?_⟩
  · rw [endQuestion_out, hq]
  · rfl
  · rfl
  · rfl
  · rfl
  · rfl
  · rfl
  · rw [endQuestion_fst, hq]

/-- C9 amended witness: the content theorem applied to the demo poll with its
active question `q1`. -/
theorem claim9_amended_witness :
    (endQuestion "teacher_end" 120 demoPoll demoSt.armedTimers).2.2
      = [⟨Target.room demoPoll.id, "questionFinished", resultPayloadJ demoQ⟩]
    ∧ (resultPayloadJ demoQ).objGet "questionId" = some (.s demoQ.id)
    ∧ (resultPayloadJ demoQ).objGet "text" = some (.s demoQ.text)
    ∧ (resultPayloadJ demoQ).objGet "options" = some (.arr (demoQ.options.map optionFullJ))
    ∧ (resultPayloadJ demoQ).objGet "totalAnswers" = some (.n demoQ.totalAnswers)
    ∧ (resultPayloadJ demoQ).objGet "durationSec" = some (.n demoQ.durationSec)
    ∧ (resultPayloadJ demoQ).objGet "reason" = none
    ∧ (resultPayloadJ demoQ).objGet "finishedAt" = none
    ∧ (endQuestion "teacher_end" 120 demoPoll demoSt.armedTimers).1.pastQuestions
        = { questionId := demoQ.id, text := demoQ.text, options := demoQ.options,
            totalAnswers := demoQ.totalAnswers, durationSec := demoQ.durationSec,
            finishedAt := 120, reason := "teacher_end" } :: demoPoll.pastQuestions :=
  claim9_amended_broadcast_content "teacher_end" 120 demoPoll demoSt.armedTimers demoQ
    (by decide)

theorem getPoll_after_set2 {s : ServerState} {x : Poll} {armed : List (Nat × String)}
    {pid : String} (hid : x.id = pid) :
    getPoll { s with polls := pollsSet s.polls x, armedTimers := armed } pid = some x := by
  unfold getPoll
  dsimp only
  rw [← hid]
  exact find?_pollsSet_self s.polls x

/-- The question object as mutated by an accepted submit: chosen option
bumped, `totalAnswers` incremented, the connection recorded. -/
def bumpedQuestion (q : Question) (sid oid : String) : Question :=
  { q with options := bumpOption q.options oid,
           totalAnswers := q.totalAnswers + 1,
           answeredBy := q.answeredBy ++ [sid] }

/-- C5: if a `student:submit` is accepted and, after the increment,
`totalAnswers ≥ roster.size` with `roster.size > 0`, the question is finished
with reason `"all_answered"` within that same submit operation: the
`results:update` broadcast is immediately followed by the `questionFinished`
broadcast, the result (with the incremented total and the finish time) is
prepended to the history, `currentQuestion` is cleared, and the question's
timer handle is disarmed — no separate event is involved. -/
theorem claim5_submit_completes_roster (s : ServerState) (sid pid qid oid : String)
    (now : Nat) (p : Poll) (q : Question) (o : QOption)
    (hp : getPoll s pid = some p) (hq : p.currentQuestion = some q)
    (hid : q.id = qid) (hact : q.status = "active") (hnew : sid ∉ q.answeredBy)
    (ho : q.options.find? (fun x => x.id == oid) = some o)
    (hall : p.students.length ≤ q.totalAnswers + 1) (hpos : 0 < p.students.length) :
    ((getPoll (studentSubmit sid (some pid) qid oid now s).1 pid).map (fun x =>
        (x.currentQuestion,
         x.pastQuestions.map (fun e => (e.questionId, e.totalAnswers, e.reason, e.finishedAt)))))
      = some (none,
          (q.id, q.totalAnswers + 1, "all_answered", now) ::
            p.pastQuestions.map (fun e => (e.questionId, e.totalAnswers, e.reason, e.finishedAt)))
    ∧ ((studentSubmit sid (some pid) qid oid now s).2.map (fun e => e.event))
        = ["results:update", "questionFinished"]
    ∧ (studentSubmit sid (some pid) qid oid now s).1.armedTimers
        = clearTimeoutOn q.timerRef s.armedTimers := by
  have hred : studentSubmit sid (some pid) qid oid now s
      = ({ s with
           polls := pollsSet s.polls
             (endQuestion "all_answered" now
               { p with currentQuestion := some (bumpedQuestion q sid oid) }
               s.armedTimers).1,
           armedTimers := (endQuestion "all_answered" now
               { p with currentQuestion := some (bumpedQuestion q sid oid) }
               s.armedTimers).2.1 },
         ⟨Target.room p.id, "results:update",
           .obj [("questionId", .s (bumpedQuestion q sid oid).id),
                 ("options", .arr ((bumpedQuestion q sid oid).options.map optionFullJ)),
                 ("totalAnswers", .n (bumpedQuestion q sid oid).totalAnswers),
                 ("studentsTotal", .n p.students.length)]⟩
           :: (endQuestion "all_answered" now
               { p with currentQuestion := some (bumpedQuestion q sid oid) }
               s.armedTimers).2.2) := by
    unfold studentSubmit
    rw [show resolveSubmitPoll s sid (some pid) = some p from hp]
    dsimp only
    rw [hq]
    dsimp only
    rw [if_neg (by simp [hid, hact]), if_neg hnew, ho]
    dsimp only
    rw [if_pos ⟨hall, hpos⟩]
    rfl
  rw [hred]
  have hpid : p.id = pid := getPoll_id hp
  have hidp : ((endQuestion "all_answered" now
      { p with currentQuestion := some (bumpedQuestion q sid oid) } s.armedTimers).1).id
        = pid := by
    rw [endQuestion_id]
    exact hpid
  refine ⟨?_, ?_, ?_⟩
  · rw [getPoll_after_set2 hidp]
    rw [endQuestion_fst]
    rfl
  · rw [endQuestion_out]
    rfl
  · rw [endQuestion_armed]
    rfl

/-- C5 witness: in the demo state student `B` answers the active question;
the roster of two is then fully answered, so the question finishes with
`"all_answered"` inside the same submit. -/
theorem claim5_witness :
    ((getPoll (studentSubmit "B" (some "p1") "q1" "o0" 107 demoSt).1 "p1").map (fun x =>
        (x.currentQuestion,
         x.pastQuestions.map (fun e => (e.questionId, e.totalAnswers, e.reason, e.finishedAt)))))
      = some (none,
          (demoQ.id, demoQ.totalAnswers + 1, "all_answered", 107) ::
            demoPoll.pastQuestions.map (fun e =>
              (e.questionId, e.totalAnswers, e.reason, e.finishedAt)))
    ∧ ((studentSubmit "B" (some "p1") "q1" "o0" 107 demoSt).2.map (fun e => e.event))
        = ["results:update", "questionFinished"]
    ∧ (studentSubmit "B" (some "p1") "q1" "o0" 107 demoSt).1.armedTimers
        = clearTimeoutOn demoQ.timerRef demoSt.armedTimers :=
  claim5_submit_completes_roster demoSt "B" "p1" "q1" "o0" 107 demoPoll demoQ
    { id := "o0", text := "3", count := 0 } (by decide) (by decide) (by decide) (by decide)
    (by decide) (by decide) (by decide) (by decide)

/-- C6: removing a student (by the bound teacher) and a student disconnect
both remove exactly that connection from the roster (strictly shrinking it)
while leaving the poll's `currentQuestion` — hence `totalAnswers` and every
recorded option count — and its history untouched. -/
theorem claim6_removal_keeps_counts (s : ServerState) (tsid pid studentId : String)
    (p : Poll) (hp : getPoll s pid = some p) (ht : p.teacherSocketId = some tsid)
    (hmem : mapHas p.students studentId = true) :
    ((getPoll (teacherRemoveStudent tsid pid studentId s).1 pid).map (fun x =>
        (x.currentQuestion, x.pastQuestions, x.students)))
      = some (p.currentQuestion, p.pastQuestions, mapDelete p.students studentId)
    ∧ ((getPoll (handleDisconnect studentId s).1 pid).map (fun x =>
        (x.currentQuestion, x.pastQuestions, x.students)))
      = some (p.currentQuestion, p.pastQuestions, mapDelete p.students studentId)
    ∧ (mapDelete p.students studentId).length < p.students.length := by
  refine ⟨?_, ?_, mapDelete_length_lt hmem⟩
  · unfold teacherRemoveStudent
    rw [hp]
    dsimp only
    rw [if_neg (by simp [ht]), if_pos hmem]
    dsimp only
    have hpid : p.id = pid := getPoll_id hp
    rw [getPoll_after_set
      (show ({ p with students := mapDelete p.students studentId } : Poll).id = pid from hpid)]
    rfl
  · show ((getPoll (handleDisconnect studentId s).1 pid).map (fun x =>
        (x.currentQuestion, x.pastQuestions, x.students)))
      = some (p.currentQuestion, p.pastQuestions, mapDelete p.students studentId)
    unfold getPoll
    rw [handleDisconnect_polls]
    rw [find?_map_id_preserved _ _ _ (disconnectPollUpdate_id studentId)]
    rw [show s.polls.find? (fun x => x.id == pid) = some p from hp]
    dsimp only [Option.map]
    have hf := disconnectPollUpdate_frame studentId p
    rw [hf.1, hf.2.1, hf.2.2, if_pos hmem]

/-- C6 witness: kicking `B` from the demo poll and disconnecting `B` both
leave `q1` (with its one recorded answer) untouched while shrinking the
roster from two entries to one. -/
theorem claim6_witness :
    ((getPoll (teacherRemoveStudent "T" "p1" "B" demoSt).1 "p1").map (fun x =>
        (x.currentQuestion, x.pastQuestions, x.students)))
      = some (demoPoll.currentQuestion, demoPoll.pastQuestions,
              mapDelete demoPoll.students "B")
    ∧ ((getPoll (handleDisconnect "B" demoSt).1 "p1").map (fun x =>
        (x.currentQuestion, x.pastQuestions, x.students)))
      = some (demoPoll.currentQuestion, demoPoll.pastQuestions,
              mapDelete demoPoll.students "B")
    ∧ (mapDelete demoPoll.students "B").length < demoPoll.students.length :=
  claim6_removal_keeps_counts demoSt "T" "p1" "B" demoPoll (by decide) (by decide) (by decide)

/-- C7: a `student:submit` that fails any of the handler's guards — unknown
poll, no current question, stale question id, finished question, a repeat
submit, or (in particular) an option id that does not belong to the current
question — is a silent no-op: the state is returned unchanged and nothing at
all is emitted, neither an error to the sender nor a broadcast to the room. -/
theorem claim7_rejected_submit_noop (s : ServerState) (sid : String)
    (pollId : Option String) (qid oid : String) (now : Nat)
    (hrej : submitAccepted s sid pollId qid oid = false) :
    studentSubmit sid pollId qid oid now s = (s, []) := by
  unfold studentSubmit
  split
  next => rfl
  next poll hres =>
    split
    next => rfl
    next q hq =>
      split
      next => rfl
      next hg1 =>
        split
        next => rfl
        next hg2 =>
          split
          next => rfl
          next o hfind =>
            exfalso
            unfold submitAccepted at hrej
            rw [hres] at hrej
            dsimp only at hrej
            rw [hq] at hrej
            dsimp only at hrej
            rw [if_neg hg1, if_neg hg2, hfind] at hrej
            simp at hrej

/-- C7 witness: submitting the unknown option id `"nope"` against the active
demo question changes nothing and emits nothing. -/
theorem claim7_witness :
    studentSubmit "B" (some "p1") "q1" "nope" 130 demoSt = (demoSt, []) :=
  claim7_rejected_submit_noop demoSt "B" (some "p1") "q1" "nope" 130 (by decide)

/-- C10: acceptance of a `student:submit` never consults the roster: any
connection that supplies the poll id, the current question's id and a valid
option id — here one that is not a roster member at all — has its answer
counted (the `results:update` broadcast reports the incremented total); the
only per-connection restriction in the guard chain is the responded set. -/
theorem claim10_submit_ignores_roster (s : ServerState) (sid pid qid oid : String)
    (now : Nat) (p : Poll) (q : Question) (o : QOption)
    (hp : getPoll s pid = some p) (hq : p.currentQuestion = some q)
    (hid : q.id = qid) (hact : q.status = "active") (hnew : sid ∉ q.answeredBy)
    (ho : q.options.find? (fun x => x.id == oid) = some o)
    (hnr : mapHas p.students sid = false) :
    ((studentSubmit sid (some pid) qid oid now s).2.head?).map (fun e =>
        (e.event, e.payload.objGet "totalAnswers"))
      = some ("results:update", some (.n (q.totalAnswers + 1))) := by
  unfold studentSubmit
  rw [show resolveSubmitPoll s sid (some pid) = some p from hp]
  dsimp only
  rw [hq]
  dsimp only
  rw [if_neg (by simp [hid, hact]), if_neg hnew, ho]
  dsimp only
  by_cases hall : q.totalAnswers + 1 ≥ p.students.length ∧ p.students.length > 0
  · rw [if_pos hall]
    rfl
  · rw [if_neg hall]
    rfl

/-- C10 witness: `B` was kicked from the roster of the demo poll, yet `B`'s
submit against the still-active `q1` is accepted and counted. -/
theorem claim10_witness :
    ((studentSubmit "B" (some "p1") "q1" "o0" 140 kickedSt).2.head?).map (fun e =>
        (e.event, e.payload.objGet "totalAnswers"))
      = some ("results:update", some (.n (kickedQ.totalAnswers + 1))) :=
  claim10_submit_ignores_roster kickedSt "B" "p1" "q1" "o0" 140 kickedPoll kickedQ
    { id := "o0", text := "3", count := 0 } (by decide) (by decide) (by decide) (by decide)
    (by decide) (by decide) (by decide)

end LivePoll
